import Mathlib

/-!
Shallow embedding of the nodeBrain repository core:
  * src/lib/Source_gen.py   — TextNormalizer (clean_topic_title),
    KeywordExtractor (extract_keywords_from_description),
    SearchClient (search_wikipedia_article),
    EvidenceLinker (generate_sources_for_topic)
  * backend/services/topicCreate.py — GoalDecomposer (generate_learning_roadmap)
  * backend/routes/roadmap.py — generate_roadmap_endpoint
  * GraphValidator is modelled from the spec (its module is not among the sources).

External collaborators (the search service, the generative model, the JSON
parser, the persistence layer) are modelled as explicit function arguments,
and effectful aspects (number of search requests issued, number of ranked
results examined, whether ingestion ran) are made explicit in return values.
-/

namespace NodeBrain

/-! ### Character/string helpers mirroring Python primitives -/

/-- Python `s.lower()` restricted to the ASCII behaviour used by the code. -/
def lowerStr (s : String) : String := String.mk (s.toList.map Char.toLower)

/-- Python `str.endswith` on character lists. -/
def endsWithL (suf s : List Char) : Bool := suf.reverse.isPrefixOf s.reverse

/-- Python `suffix in s` (substring occurrence) on character lists. -/
def occursInL (pat : List Char) : List Char → Bool
  | [] => pat.isEmpty
  | c :: cs => pat.isPrefixOf (c :: cs) || occursInL pat cs

/-- Python `sub in s`: `sub` occurs somewhere inside `s`. -/
def strContains (s sub : String) : Bool := occursInL sub.toList s.toList

/-- Python `s.replace(pat, "", 1)` on character lists: delete the first
occurrence of `pat`, leave the list unchanged when `pat` does not occur. -/
def removeFirstL (pat : List Char) : List Char → List Char
  | [] => []
  | c :: cs =>
    if pat.isPrefixOf (c :: cs) then (c :: cs).drop pat.length
    else c :: removeFirstL pat cs

/-- Python `s.replace(pat, "", 1)` on strings. -/
def removeFirst (s pat : String) : String := String.mk (removeFirstL pat.toList s.toList)

/-- Python `s.strip()`: remove leading and trailing whitespace. -/
def trimStr (s : String) : String :=
  String.mk (((s.toList.dropWhile Char.isWhitespace).reverse.dropWhile Char.isWhitespace).reverse)

/-! ### TextNormalizer: clean_topic_title (Source_gen.py lines 12-43) -/

/-- The fixed filler-prefix patterns, in source order (Source_gen.py 22-31). -/
def prefixesCL : List (List Char) :=
  ["Introduction to ".toList, "The ".toList, "An ".toList, "A ".toList,
   "Fundamentals of ".toList, "Basics of ".toList, "Advanced ".toList,
   "Concepts of ".toList]

/-- One pass of `re.sub(f"^{p}", "", s, flags=re.IGNORECASE)` for a literal
pattern `p`: strip `p` from the front when it matches case-insensitively. -/
def stripPrefixCIL (p s : List Char) : List Char :=
  if (p.map Char.toLower).isPrefixOf (s.map Char.toLower) then s.drop p.length else s

/-- The prefix-stripping loop of clean_topic_title (lines 32-33): each pattern
is applied once, in order, to the current string. -/
def cleanPrefixPass (cs : List Char) : List Char :=
  prefixesCL.foldl (fun acc p => stripPrefixCIL p acc) cs

/-- The tail of clean_topic_title (lines 35-43): strip whitespace, then the
naive singularization (drop a trailing "s" unless the lowered string ends in
"ss", "ics", "esis" or "us", and only when longer than 2 characters). -/
def finishClean (s : String) : String :=
  let cleaned := trimStr s
  let lc := (lowerStr cleaned).toList
  if endsWithL ['s'] lc ∧ cleaned.length > 2 ∧ ¬ endsWithL ['s', 's'] lc then
    if ¬ (endsWithL "ics".toList lc ∨ endsWithL "esis".toList lc ∨ endsWithL "us".toList lc)
    then String.mk cleaned.toList.dropLast
    else cleaned
  else cleaned

/-- clean_topic_title (Source_gen.py 12-43): the prefix loop followed by
trimming and naive singularization. -/
def clean_topic_title (title : String) : String :=
  finishClean (String.mk (cleanPrefixPass title.toList))

/-! ### KeywordExtractor: extract_keywords_from_description (Source_gen.py 45-82) -/

/-- Leftmost match of the delimiter regex of line 56, at the head of the list:
either `[;,]` followed by a (greedy, possibly empty) whitespace run, or a
whitespace run followed by the literal word "and" followed by a whitespace
run.  Returns the remainder after the consumed delimiter, `none` when no
delimiter matches at this position. -/
def matchDelim : List Char → Option (List Char)
  | [] => none
  | c :: cs =>
    if c = ';' ∨ c = ',' then some (cs.dropWhile Char.isWhitespace)
    else if c.isWhitespace then
      match (c :: cs).dropWhile Char.isWhitespace with
      | 'a' :: 'n' :: 'd' :: rest =>
        match rest with
        | d :: _ => if d.isWhitespace then some (rest.dropWhile Char.isWhitespace) else none
        | [] => none
      | _ => none
    else none

/-- The splitting loop of Python `re.split(r'[;,]\s*|\s+and\s+', s)`: scan
left to right, cut at the leftmost delimiter match, repeat on the remainder.
`fuel` bounds the recursion; every step consumes at least one character, so
`s.length + 1` fuel always suffices. -/
def splitParts : Nat → List Char → List Char → List String
  | 0, cs, acc => [String.mk (acc.reverse ++ cs)]
  | _ + 1, [], acc => [String.mk acc.reverse]
  | fuel + 1, c :: cs, acc =>
    match matchDelim (c :: cs) with
    | some rest => String.mk acc.reverse :: splitParts fuel rest []
    | none => splitParts fuel cs (c :: acc)

/-- Python `re.split(r'[;,]\s*|\s+and\s+', s)`. -/
def reSplitDelims (s : String) : List String :=
  splitParts (s.toList.length + 1) s.toList []

/-- Python `re.sub(r'[\).\s]+$', '', part)`: drop the trailing run of
closing parentheses, periods and whitespace. -/
def stripTrailingJunk (s : String) : String :=
  String.mk ((s.toList.reverse.dropWhile fun c => c = ')' ∨ c = '.' ∨ c.isWhitespace).reverse)

/-- Python `re.sub(r'^\s*\(', '', part)`: when an opening parenthesis follows
the leading whitespace, drop that whitespace and the parenthesis; otherwise
leave the string unchanged (the pattern requires the parenthesis). -/
def stripLeadingParen (s : String) : String :=
  match s.toList.dropWhile Char.isWhitespace with
  | '(' :: rest => String.mk rest
  | _ => s

/-- The per-fragment processing of the main loop (Source_gen.py 58-67):
trim, strip trailing stray punctuation and a leading parenthesis, keep the
fragment only when non-empty and longer than 3 characters. -/
def keywordFromPart (part : String) : Option String :=
  let p1 := trimStr part
  if p1 ≠ "" then
    let p2 := stripLeadingParen (stripTrailingJunk p1)
    if p2 ≠ "" ∧ p2.length > 3 then some p2 else none
  else none

/-- The stoplist of Source_gen.py line 79. -/
def unwanted_keywords : List String :=
  ["etc", "and so on", "such as", "e.g.", "i.e.", "or", "introduction", "basics", "advanced"]

/-- Counts the maximal non-whitespace runs of a character list. -/
def wordCountAux : List Char → Bool → Nat
  | [], _ => 0
  | c :: cs, inWord =>
    if c.isWhitespace then wordCountAux cs false
    else (if inWord then 0 else 1) + wordCountAux cs true

/-- Python `len(kw.split())`: number of whitespace-separated words. -/
def wordCount (s : String) : Nat := wordCountAux s.toList false

/-- Python `description.split(':', 1)[1]`: everything after the first colon
(callers guard on the colon being present). -/
def afterFirstColon (s : String) : String :=
  String.mk ((s.toList.dropWhile (· ≠ ':')).drop 1)

/-- extract_keywords_from_description (Source_gen.py 45-82): split on the
delimiter regex, clean and filter each fragment; when a colon is present,
split the text after the first colon the same way and append fragments not
already collected; drop stoplisted fragments and fragments longer than 5
words; return the deduplicated collection (Python returns `list(set(...))`,
so only the membership of the result is specified, not its order). -/
def extract_keywords_from_description (description : String) : List String :=
  let keywords := (reSplitDelims description).filterMap keywordFromPart
  let keywords :=
    if description.toList.contains ':' then
      let post_colon := trimStr (afterFirstColon description)
      (reSplitDelims post_colon).foldl
        (fun kws mp =>
          let mp := trimStr mp
          if mp ≠ "" ∧ mp.length > 3 ∧ mp ∉ kws then kws ++ [mp] else kws)
        keywords
    else keywords
  let keywords := keywords.filter
    (fun kw => !(unwanted_keywords.contains (lowerStr kw)) && decide (wordCount kw ≤ 5))
  keywords.eraseDups

/-! ### SearchClient: search_wikipedia_article (Source_gen.py 85-156)

The external search service returns, per request, positionally aligned title
and url lists (`[search_term, [titles], [descriptions], [urls]]`); we model a
ranked result as an `Article` and the whole service as a function from the
query string to `Option (List Article)`, where `none` stands for a failed
request (`requests.exceptions.RequestException`) and `some l` for a
successful response with ranked results `l`. -/

/-- One ranked search result: a title/url pair (data[1][i], data[3][i]). -/
structure Article where
  title : String
  url : String
deriving DecidableEq, Repr

/-- A behaviour of the external search service. -/
abbrev SearchFun := String → Option (List Article)

/-- The variant list after lines 92-97: the query term itself, then the
cleaned term when non-empty, case-insensitively different and not already
present. -/
def baseQueries (query_term : String) : List String :=
  let qs := [query_term]
  let cleaned := clean_topic_title query_term
  if cleaned ≠ "" ∧ lowerStr cleaned ≠ lowerStr query_term ∧ cleaned ∉ qs
  then qs ++ [cleaned] else qs

/-- The full variant list of search_wikipedia_article (lines 92-103): base
variants, then — when the term ends in " theory" case-insensitively — the
term with its first " Theory" occurrence removed and then its first
" theory" occurrence removed, when non-empty, case-insensitively different
and not already present. -/
def buildSearchQueries (query_term : String) : List String :=
  let qs := baseQueries query_term
  if endsWithL " theory".toList (lowerStr query_term).toList then
    let core := removeFirst (removeFirst query_term " Theory") " theory"
    if core ≠ "" ∧ lowerStr core ≠ lowerStr query_term ∧ core ∉ qs
    then qs ++ [core] else qs
  else qs

/-- The relevance check of lines 128-139 for one ranked result: the lowered
variant equals the lowered title, or one contains the other. -/
def isStrongMatch (lv : String) (a : Article) : Bool :=
  lv == lowerStr a.title || strContains (lowerStr a.title) lv || strContains lv (lowerStr a.title)

/-- The inner ranked-result loop (lines 123-143) for one variant: return the
first strongly matching result together with the number of results examined
before returning (all of them when no strong match exists). -/
def scanResults (lv : String) : List Article → Option Article × Nat
  | [] => (none, 0)
  | a :: rest =>
    if isStrongMatch lv a then (some a, 1)
    else
      let r := scanResults lv rest
      (r.1, r.2 + 1)

/-- Observable outcome of one search_wikipedia_article call: the returned
article (or `none`), the number of search requests issued, and the number of
ranked results examined. -/
structure SearchOutcome where
  result : Option Article
  requests : Nat
  examined : Nat
deriving DecidableEq, Repr

/-- The variant loop of search_wikipedia_article (lines 107-156): one request
per variant; a failed request or an empty result list moves to the next
variant; a strong match returns immediately; otherwise the variant's
top-ranked result is recorded as a fallback; after all variants, the first
recorded fallback (or `none`) is returned. -/
def searchLoop (f : SearchFun) : List String → List Article → Nat → Nat → SearchOutcome
  | [], found, req, exam => ⟨found.head?, req, exam⟩
  | v :: vs, found, req, exam =>
    match f v with
    | none => searchLoop f vs found (req + 1) exam
    | some [] => searchLoop f vs found (req + 1) exam
    | some (a :: rest) =>
      let scan := scanResults (lowerStr v) (a :: rest)
      match scan.1 with
      | some m => ⟨some m, req + 1, exam + scan.2⟩
      | none => searchLoop f vs (found ++ [a]) (req + 1) (exam + scan.2)

/-- search_wikipedia_article (Source_gen.py 85-156), parametric in the search
service behaviour. -/
def search_wikipedia_article (f : SearchFun) (query_term : String) : SearchOutcome :=
  searchLoop f (buildSearchQueries query_term) [] 0 0

/-- The top-ranked results of the variants that returned any results, in
variant order: the list the code's `found_articles` accumulates when no
strong match fires. -/
def fallbackList (f : SearchFun) : List String → List Article
  | [] => []
  | v :: vs =>
    match f v with
    | some (a :: _) => a :: fallbackList f vs
    | _ => fallbackList f vs

/-! ### EvidenceLinker: generate_sources_for_topic (Source_gen.py 158-208) -/

/-- One emitted source (the dicts built at lines 175-181 and 195-201). -/
structure SourceCandidate where
  url : String
  type : String
  title : String
  relevance_score : ℚ
  context_for_topic : String
deriving DecidableEq, Repr

/-- The sub-topic loop (lines 191-204): search each extracted keyword, emit a
0.8-relevance candidate when a match is found whose url was not seen, and
record the url as seen.  Also accumulates the total number of raw search
requests issued. -/
def subTopicLoop (f : SearchFun) :
    List String → List SourceCandidate → List String → Nat → List SourceCandidate × Nat
  | [], srcs, _, reqs => (srcs, reqs)
  | st :: rest, srcs, seen, reqs =>
    let r := search_wikipedia_article f st
    match r.result with
    | some a =>
      if a.url ∈ seen then subTopicLoop f rest srcs seen (reqs + r.requests)
      else subTopicLoop f rest
        (srcs ++ [⟨a.url, "Wikipedia Article", a.title, (8 : ℚ)/10, st⟩])
        (seen ++ [a.url]) (reqs + r.requests)
    | none => subTopicLoop f rest srcs seen (reqs + r.requests)

/-- The body of generate_sources_for_topic once both dict keys have been
read: primary title search with relevance 0.9, then — when the description
is non-empty — one search per extracted keyword with relevance 0.8,
deduplicating by url via `seen_urls` throughout. -/
def generateSourcesCore (f : SearchFun) (topic_title topic_description : String) :
    List SourceCandidate × Nat :=
  let r := search_wikipedia_article f topic_title
  let init : List SourceCandidate × List String :=
    match r.result with
    | some a => ([⟨a.url, "Wikipedia Article", a.title, (9 : ℚ)/10, topic_title⟩], [a.url])
    | none => ([], [])
  if topic_description ≠ "" then
    subTopicLoop f (extract_keywords_from_description topic_description) init.1 init.2 r.requests
  else (init.1, r.requests)

/-- The topic dict handed to generate_sources_for_topic: the two keys the
function reads, each possibly absent. -/
structure TopicDict where
  title : Option String
  description : Option String

/-- generate_sources_for_topic (Source_gen.py 158-208): reads
`topic_data['title']` then `topic_data['description']` — a missing key
raises KeyError before any search request — then runs the search pipeline.
The second component counts the raw search requests issued. -/
def generate_sources_for_topic (f : SearchFun) (topic_data : TopicDict) :
    Except String (List SourceCandidate) × Nat :=
  match topic_data.title with
  | none => (.error "KeyError: title", 0)
  | some t =>
    match topic_data.description with
    | none => (.error "KeyError: description", 0)
    | some d =>
      let r := generateSourcesCore f t d
      (.ok r.1, r.2)

/-! ### GoalDecomposer: generate_learning_roadmap (topicCreate.py 16-89) -/

/-- One decomposed topic (the JSON objects the prompt requests). -/
structure Topic where
  id : String
  title : String
  description : String
  difficulty : String
  prerequisites : List String
deriving DecidableEq, Repr

/-- The fence-stripping of topicCreate.py 75-79: when the stripped response
text opens with a fenced block marker, delete every occurrence of the fence
openers/closers (Python `str.replace` replaces all occurrences). -/
def stripFences (s : String) : String :=
  if s.startsWith "```json" then (s.replace "```json\n" "").replace "\n```" ""
  else if s.startsWith "```" then (s.replace "```\n" "").replace "\n```" ""
  else s

/-- generate_learning_roadmap (topicCreate.py 16-89), parametric in the
generative collaborator (`.error` = a raised collaborator/network exception,
`.ok` = the response text) and in the JSON parser behaviour (`none` = parse
failure).  The `try/except` makes every failure return `[]`; totality of
this function is the embedded form of "does not raise to its caller". -/
def generate_learning_roadmap (collab : Except String String)
    (parseJson : String → Option (List Topic)) : List Topic :=
  match collab with
  | .error _ => []
  | .ok text =>
    match parseJson (stripFences (trimStr text)) with
    | none => []
    | some topics => topics

/-! ### GraphValidator (modelled from the spec) -/

/-- Modelled from the spec: the GraphValidator component (spec §4.2, §8) is
implemented in `backend/services/neo4j_ingest.py`, which is not among the
provided sources (only its caller in `routes/roadmap.py` is).  Following the
spec's words, a topic is flagged when its id duplicates the id of a topic at
a strictly earlier position, or when one of its prerequisite ids does not
resolve to a topic at a strictly earlier position. -/
def flagTopic (earlier : List Topic) (t : Topic) : Bool :=
  earlier.any (fun u => u.id == t.id) ||
    t.prerequisites.any (fun p => !(earlier.any (fun u => u.id == p)))

/-- Modelled from the spec: the validation sweep — walk the raw topic
sequence front to back, flagging each topic against the topics before it;
validation is advisory, so the sequence itself is not modified and the
positions of the flagged topics are reported. -/
def gvAux : List Topic → List Topic → Nat → List Nat
  | _, [], _ => []
  | earlier, t :: rest, i =>
    if flagTopic earlier t then i :: gvAux (earlier ++ [t]) rest (i + 1)
    else gvAux (earlier ++ [t]) rest (i + 1)

/-- Modelled from the spec: GraphValidator on a raw topic sequence — the
positions of all flagged topics, in order. -/
def validate_topic_sequence (ts : List Topic) : List Nat := gvAux [] ts 0

/-! ### HTTP endpoint: generate_roadmap_endpoint (roadmap.py 7-16) -/

/-- The request body fields the endpoint reads (`data.get("goal")`,
`data.get("user_id", "user123")`). -/
structure RequestBody where
  goal : Option String
  user_id : Option String

/-- Outcome of the endpoint: a raised HTTPException or the ingestion
result. -/
inductive EndpointResult (ρ : Type) where
  | httpError (status : Nat) (detail : String)
  | ok (result : ρ)

/-- generate_roadmap_endpoint (roadmap.py 7-16), parametric in the
decomposition/ingestion pipeline `ingest`.  `not learning_goal` is true in
Python for an absent key and for the empty string.  The second component
counts how many times the pipeline was invoked. -/
def generate_roadmap_endpoint {ρ : Type} (ingest : String → String → ρ)
    (data : RequestBody) : EndpointResult ρ × Nat :=
  match data.goal with
  | none => (.httpError 400 "Missing learning goal.", 0)
  | some g =>
    if g = "" then (.httpError 400 "Missing learning goal.", 0)
    else (.ok (ingest g (data.user_id.getD "user123")), 1)

/-! ## Helper lemmas -/

theorem isPrefixOf_exists (p s : List Char) : p.isPrefixOf s = true ↔ ∃ t, s = p ++ t := by
  induction p generalizing s with
  | nil => simp [List.isPrefixOf]
  | cons a p ih =>
    cases s with
    | nil => simp [List.isPrefixOf]
    | cons b s =>
      simp only [List.isPrefixOf, Bool.and_eq_true, beq_iff_eq, List.cons_append,
        List.cons.injEq, ih]
      constructor
      · rintro ⟨rfl, t, rfl⟩; exact ⟨t, rfl, rfl⟩
      · rintro ⟨t, rfl, rfl⟩; exact ⟨rfl, t, rfl⟩

theorem isPrefixOf_append_left (p a t : List Char) (h : a.isPrefixOf t = true) :
    (p ++ a).isPrefixOf (p ++ t) = true := by
  obtain ⟨u, rfl⟩ := (isPrefixOf_exists a t).1 h
  exact (isPrefixOf_exists _ _).2 ⟨u, by simp⟩

/-- Structure of the prefix-stripping loop: the result is the input with the
concatenation of some subsequence of the patterns (each pattern contributing
at most once, in list order) removed from the front, and that concatenation,
lowered, is a prefix of the lowered input. -/
theorem foldl_stripPrefix_structure (L : List (List Char)) (cs : List Char) :
    ∃ ps, List.Sublist ps L ∧
      (ps.flatten.map Char.toLower).isPrefixOf (cs.map Char.toLower) = true ∧
      L.foldl (fun acc p => stripPrefixCIL p acc) cs = cs.drop ((ps.map List.length).sum) := by
  induction L generalizing cs with
  | nil => exact ⟨[], List.Sublist.refl _, by simp [List.isPrefixOf], by simp⟩
  | cons p L ih =>
    by_cases h : (p.map Char.toLower).isPrefixOf (cs.map Char.toLower) = true
    · obtain ⟨ps, hsub, hpre, heq⟩ := ih (cs.drop p.length)
      refine ⟨p :: ps, List.Sublist.cons₂ _ hsub, ?_, ?_⟩
      · obtain ⟨t, ht⟩ := (isPrefixOf_exists _ _).1 h
        have hdropmap : (cs.drop p.length).map Char.toLower = t := by
          rw [List.map_drop, ht]
          have hlen : p.length = (p.map Char.toLower).length := (List.length_map _ _).symm
          rw [hlen, List.drop_left]
        rw [hdropmap] at hpre
        have hap := isPrefixOf_append_left (p.map Char.toLower) _ _ hpre
        rw [← List.map_append] at hap
        rw [List.flatten_cons, ht]
        exact hap
      · rw [List.foldl_cons]
        have hstep : stripPrefixCIL p cs = cs.drop p.length := by
          simp only [stripPrefixCIL]; rw [if_pos h]
        rw [hstep, heq, List.drop_drop, List.map_cons, List.sum_cons]
    · obtain ⟨ps, hsub, hpre, heq⟩ := ih cs
      refine ⟨ps, List.Sublist.cons _ hsub, hpre, ?_⟩
      rw [List.foldl_cons]
      have hstep : stripPrefixCIL p cs = cs := by
        simp only [stripPrefixCIL]; rw [if_neg h]
      rw [hstep]
      exact heq

theorem strMk_toList (s : String) : String.mk s.toList = s := rfl

theorem removeFirstL_of_not_occurs (pat : List Char) (s : List Char)
    (h : occursInL pat s = false) : removeFirstL pat s = s := by
  induction s with
  | nil => rfl
  | cons c cs ih =>
    have h' : pat.isPrefixOf (c :: cs) = false ∧ occursInL pat cs = false := by
      have := h
      simp only [occursInL, Bool.or_eq_false_iff] at this
      exact this
    simp only [removeFirstL, h'.1, Bool.false_eq_true, if_false]
    rw [ih h'.2]

/-! ## Claim theorems -/

/-- C2, counterexample: clean_topic_title on "The Advanced HTML" strips both
"The " and "Advanced " and yields "HTML", not the "Advanced HTML" the claim
("only 'The ' is lost") predicts. -/
theorem C2_counterexample :
    clean_topic_title "The Advanced HTML" = "HTML" ∧ ("HTML" : String) ≠ "Advanced HTML" := by
  refine ⟨by decide, by decide⟩

/-- C2, amended: clean_topic_title strips each of the eight fixed filler
prefixes at most once, applying them sequentially in the fixed order to the
current string, so several prefixes can be removed from one title (each
later-listed prefix may match after an earlier one is gone); the removed
text is the concatenation of a subsequence of the prefix list, matched
case-insensitively at the front of the title, and the rest of the function
(trim and naive singularization) runs on what remains. -/
theorem C2_amended_sequential_prefix_strip (title : String) :
    ∃ ps, List.Sublist ps prefixesCL ∧
      (ps.flatten.map Char.toLower).isPrefixOf (title.toList.map Char.toLower) = true ∧
      clean_topic_title title =
        finishClean (String.mk (title.toList.drop ((ps.map List.length).sum))) := by
  obtain ⟨ps, hsub, hpre, heq⟩ := foldl_stripPrefix_structure prefixesCL title.toList
  refine ⟨ps, hsub, hpre, ?_⟩
  simp only [clean_topic_title, cleanPrefixPass]
  rw [heq]

/-- C3, counterexample: on "Covers vector spaces, matrices, and inner
products." the extractor does not return "vector spaces" or "inner products"
as fragments — the leading verb stays glued to the first fragment and the
comma delimiter consumes the space in ", and", so the " and " delimiter
never fires. -/
theorem C3_counterexample :
    "vector spaces" ∉
        extract_keywords_from_description "Covers vector spaces, matrices, and inner products." ∧
      "inner products" ∉
        extract_keywords_from_description "Covers vector spaces, matrices, and inner products." := by
  refine ⟨by decide, by decide⟩

/-- C3, amended: on the exact string "Covers vector spaces, matrices, and
inner products." the extractor returns exactly the fragments "Covers vector
spaces", "matrices" and "and inner products" (as a set — the model fixes the
insertion order): "matrices" is present as claimed, but "vector spaces" and
"inner products" appear only inside larger fragments, not as elements; no
stoplisted fragment and no fragment of 3 or fewer characters occurs. -/
theorem C3_amended_exact_fragments :
    extract_keywords_from_description "Covers vector spaces, matrices, and inner products." =
      ["Covers vector spaces", "matrices", "and inner products"] := by
  decide

/-- C8, counterexample: "GAME THEORY" ends in " theory" case-insensitively
and the suffix-stripped term "GAME" is distinct from every prior variant,
yet the variant list is just ["GAME THEORY"]: the replace calls only delete
the literal capitalizations " Theory" and " theory", so for " THEORY" no
extra variant is added. -/
theorem C8_counterexample :
    endsWithL " theory".toList (lowerStr "GAME THEORY").toList = true ∧
      ("GAME THEORY" : String).dropRight 7 = "GAME" ∧
      buildSearchQueries "GAME THEORY" = ["GAME THEORY"] ∧
      "GAME" ∉ buildSearchQueries "GAME THEORY" := by
  refine ⟨by decide, by decide, by decide, by decide⟩

/-- C8, amended: the "core concept" variant is only produced for the literal
capitalizations " theory" / " Theory": for every query term that ends in
" theory" case-insensitively, does not contain the exact substring
" Theory", and whose first occurrence of " theory" is the trailing suffix
itself (so deleting the first occurrence strips the suffix), the variant
list is the base variants (original and cleaned term) followed by the term
with the trailing " theory" removed, whenever that string is non-empty,
differs case-insensitively from the term and is distinct from the prior
variants; under any other capitalization of the suffix (e.g. " THEORY") no
variant is added, as the counterexample shows. -/
theorem C8_amended_exact_case_theory_variant (q : String)
    (hend : endsWithL " theory".toList (lowerStr q).toList = true)
    (hTheory : strContains q " Theory" = false)
    (hfirst : removeFirst q " theory" = q.dropRight 7)
    (hne : q.dropRight 7 ≠ "")
    (hci : lowerStr (q.dropRight 7) ≠ lowerStr q)
    (hnotin : q.dropRight 7 ∉ baseQueries q) :
    buildSearchQueries q = baseQueries q ++ [q.dropRight 7] := by
  have h1 : removeFirst q " Theory" = q := by
    simp only [removeFirst]
    rw [removeFirstL_of_not_occurs _ _ hTheory]
    exact strMk_toList q
  simp only [buildSearchQueries]
  rw [if_pos hend, h1, hfirst, if_pos ⟨hne, hci, hnotin⟩]

/-- C8, witness: "Game theory" satisfies every hypothesis of the amended
claim and its variant list is ["Game theory", "Game"]. -/
theorem C8_amended_witness :
    (endsWithL " theory".toList (lowerStr "Game theory").toList = true ∧
      strContains "Game theory" " Theory" = false ∧
      removeFirst "Game theory" " theory" = ("Game theory" : String).dropRight 7 ∧
      ("Game theory" : String).dropRight 7 ≠ "" ∧
      lowerStr (("Game theory" : String).dropRight 7) ≠ lowerStr "Game theory" ∧
      ("Game theory" : String).dropRight 7 ∉ baseQueries "Game theory") ∧
      buildSearchQueries "Game theory" =
        baseQueries "Game theory" ++ [("Game theory" : String).dropRight 7] :=
  ⟨⟨by decide, by decide, by decide, by decide, by decide, by decide⟩,
    C8_amended_exact_case_theory_variant "Game theory" (by decide) (by decide) (by decide)
      (by decide) (by decide) (by decide)⟩

/-- The query term itself is always the first search variant. -/
theorem buildSearchQueries_head (q : String) : ∃ t, buildSearchQueries q = q :: t := by
  simp only [buildSearchQueries, baseQueries]
  repeat' split
  all_goals exact ⟨_, rfl⟩

/-- C5: when the first variant's top-ranked result title case-insensitively
equals the query term, search_wikipedia_article returns that result as a
strong match immediately: exactly one search request is issued (none for any
later variant) and exactly one ranked result is examined (none of the
lower-ranked results of the first variant). -/
theorem C5_strong_match_short_circuits (f : SearchFun) (q : String) (a : Article)
    (rest : List Article) (hf : f q = some (a :: rest))
    (ht : lowerStr a.title = lowerStr q) :
    search_wikipedia_article f q = ⟨some a, 1, 1⟩ := by
  obtain ⟨t, hbuild⟩ := buildSearchQueries_head q
  have hstrong : isStrongMatch (lowerStr q) a = true := by
    simp [isStrongMatch, ht]
  simp only [search_wikipedia_article]
  rw [hbuild]
  simp only [searchLoop, hf, scanResults, hstrong, if_true]

/-- Search behaviour used to witness C5: the query "Algebra" answers with a
single result whose title "algebra" matches case-insensitively. -/
def c5SearchFun : SearchFun :=
  fun v => if v = "Algebra" then some [⟨"algebra", "u2"⟩] else none

/-- C5, witness: concrete behaviour where the hypotheses hold and the strong
match is returned with one request issued and one result examined. -/
theorem C5_witness :
    c5SearchFun "Algebra" = some [⟨"algebra", "u2"⟩] ∧
      lowerStr (Article.mk "algebra" "u2").title = lowerStr "Algebra" ∧
      search_wikipedia_article c5SearchFun "Algebra" =
        ⟨some ⟨"algebra", "u2"⟩, 1, 1⟩ :=
  ⟨by decide, by decide,
    C5_strong_match_short_circuits c5SearchFun "Algebra" ⟨"algebra", "u2"⟩ [] (by decide)
      (by decide)⟩

theorem scanResults_no_match (lv : String) (arts : List Article)
    (h : ∀ a ∈ arts, isStrongMatch lv a = false) :
    scanResults lv arts = (none, arts.length) := by
  induction arts with
  | nil => rfl
  | cons a rest ih =>
    simp only [scanResults, h a (List.mem_cons_self a rest), Bool.false_eq_true, if_false]
    rw [ih (fun x hx => h x (List.mem_cons_of_mem a hx))]
    rfl

theorem searchLoop_no_strong (f : SearchFun) : ∀ vs : List String,
    (∀ v ∈ vs, ∀ arts, f v = some arts → ∀ a ∈ arts, isStrongMatch (lowerStr v) a = false) →
    ∀ (found : List Article) (req exam : Nat),
      (searchLoop f vs found req exam).result = (found ++ fallbackList f vs).head? := by
  intro vs
  induction vs with
  | nil => intro _ found req exam; simp [searchLoop, fallbackList]
  | cons v vs ih =>
    intro h found req exam
    have hrest := fun v' hv' => h v' (List.mem_cons_of_mem v hv')
    cases hfv : f v with
    | none =>
      simp only [searchLoop, hfv, fallbackList]
      exact ih hrest found _ _
    | some arts =>
      cases arts with
      | nil =>
        simp only [searchLoop, hfv, fallbackList]
        exact ih hrest found _ _
      | cons a rest =>
        have hscan := scanResults_no_match (lowerStr v) (a :: rest)
          (h v (List.mem_cons_self v vs) (a :: rest) hfv)
        simp only [searchLoop, hfv, hscan, fallbackList]
        rw [ih hrest (found ++ [a]) _ _]
        simp [List.append_assoc]

/-- C4: when no returned result of any variant matches the variant
case-insensitively and no substring containment holds in either direction,
search_wikipedia_article returns the top-ranked result of the earliest
variant whose request succeeded with a non-empty result list, and `none`
when no variant returned any results (`fallbackList` collects exactly the
per-variant top results, in variant order). -/
theorem C4_returns_first_fallback (f : SearchFun) (q : String)
    (h : ∀ v ∈ buildSearchQueries q, ∀ arts, f v = some arts →
      ∀ a ∈ arts, isStrongMatch (lowerStr v) a = false) :
    (search_wikipedia_article f q).result =
      (fallbackList f (buildSearchQueries q)).head? := by
  have hloop := searchLoop_no_strong f (buildSearchQueries q) h [] 0 0
  simpa [search_wikipedia_article] using hloop

/-- Search behaviour used to witness C4: "Algebra" answers with one result
whose title "Zq" neither equals the variant nor contains it (nor conversely);
every other variant request fails. -/
def c4SearchFun : SearchFun :=
  fun v => if v = "Algebra" then some [⟨"Zq", "u1"⟩] else none

/-- C4, witness: concrete behaviour with no strong match anywhere; the
search returns the first variant's top result as the fallback. -/
theorem C4_witness :
    (∀ v ∈ buildSearchQueries "Algebra", ∀ arts, c4SearchFun v = some arts →
        ∀ a ∈ arts, isStrongMatch (lowerStr v) a = false) ∧
      (search_wikipedia_article c4SearchFun "Algebra").result =
        (fallbackList c4SearchFun (buildSearchQueries "Algebra")).head? := by
  have hyp : ∀ v ∈ buildSearchQueries "Algebra", ∀ arts, c4SearchFun v = some arts →
      ∀ a ∈ arts, isStrongMatch (lowerStr v) a = false := by
    intro v hv arts harts a ha
    have hq : buildSearchQueries "Algebra" = ["Algebra"] := by decide
    rw [hq] at hv
    have hv' : v = "Algebra" := by simpa using hv
    subst hv'
    simp only [c4SearchFun, if_true, Option.some.injEq, reduceIte] at harts
    subst harts
    have ha' : a = ⟨"Zq", "u1"⟩ := by simpa using ha
    subst ha'
    decide
  exact ⟨hyp, C4_returns_first_fallback c4SearchFun "Algebra" hyp⟩

/-- Invariant of the sub-topic loop: when the urls already emitted are
pairwise distinct and all recorded in `seen`, the loop's output urls stay
pairwise distinct (a candidate is only appended when its url is not in
`seen`, and its url is then recorded). -/
theorem subTopicLoop_nodup (f : SearchFun) : ∀ (sts : List String)
    (srcs : List SourceCandidate) (seen : List String) (reqs : Nat),
    (srcs.map SourceCandidate.url).Nodup →
    (∀ s ∈ srcs, s.url ∈ seen) →
    ((subTopicLoop f sts srcs seen reqs).1.map SourceCandidate.url).Nodup := by
  intro sts
  induction sts with
  | nil => intro srcs seen reqs hnd _; simpa [subTopicLoop] using hnd
  | cons st rest ih =>
    intro srcs seen reqs hnd hseen
    simp only [subTopicLoop]
    cases hres : (search_wikipedia_article f st).result with
    | none => exact ih _ _ _ hnd hseen
    | some a =>
      dsimp only
      by_cases hmem : a.url ∈ seen
      · rw [if_pos hmem]
        exact ih _ _ _ hnd hseen
      · rw [if_neg hmem]
        apply ih
        · rw [List.map_append]
          refine List.Nodup.append hnd (by simp) ?_
          intro x hx hx'
          obtain ⟨s, hs, rfl⟩ := List.mem_map.1 hx
          have hx'' : s.url = a.url := by simpa using hx'
          exact hmem (hx'' ▸ hseen s hs)
        · intro s hs
          rcases List.mem_append.1 hs with h1 | h2
          · exact List.mem_append_left _ (hseen s h1)
          · have : s = ⟨a.url, "Wikipedia Article", a.title, (8 : ℚ)/10, st⟩ := by
              simpa using h2
            subst this
            exact List.mem_append_right _ (by simp)

/-- C1: for every topic dict carrying both keys and every behaviour of the
external search service, the source list returned by
generate_sources_for_topic contains no two SourceCandidates with the same
url — once a url enters `seen_urls`, any later match with that url is
discarded. -/
theorem C1_no_duplicate_urls (f : SearchFun) (t d : String) :
    (generate_sources_for_topic f ⟨some t, some d⟩).1 = .ok (generateSourcesCore f t d).1 ∧
      ((generateSourcesCore f t d).1.map SourceCandidate.url).Nodup := by
  refine ⟨rfl, ?_⟩
  simp only [generateSourcesCore]
  cases hres : (search_wikipedia_article f t).result with
  | none =>
    split
    · exact subTopicLoop_nodup f _ _ _ _ (by simp) (by simp)
    · simp
  | some a =>
    split
    · refine subTopicLoop_nodup f _ _ _ _ (by simp) ?_
      intro s hs
      have : s = ⟨a.url, "Wikipedia Article", a.title, (9 : ℚ)/10, t⟩ := by simpa using hs
      subst this
      simp
    · simp

/-- C10: for every topic dict lacking the 'title' key or the 'description'
key, generate_sources_for_topic raises a KeyError before issuing any search
request (zero requests are counted); both keys present is an unstated
precondition of the interface. -/
theorem C10_missing_key_raises (f : SearchFun) (td : TopicDict)
    (h : td.title = none ∨ td.description = none) :
    (∃ e, (generate_sources_for_topic f td).1 = .error e) ∧
      (generate_sources_for_topic f td).2 = 0 := by
  obtain ⟨titleF, descF⟩ := td
  rcases h with h | h
  · cases h
    exact ⟨⟨"KeyError: title", rfl⟩, rfl⟩
  · cases h
    cases titleF with
    | none => exact ⟨⟨"KeyError: title", rfl⟩, rfl⟩
    | some t => exact ⟨⟨"KeyError: description", rfl⟩, rfl⟩

/-- C10, witness: a dict with the 'title' key absent makes the function
error out with zero search requests, for an always-failing search
behaviour. -/
theorem C10_witness :
    ((⟨none, some "desc"⟩ : TopicDict).title = none ∨
        (⟨none, some "desc"⟩ : TopicDict).description = none) ∧
      (∃ e, (generate_sources_for_topic (fun _ => none) ⟨none, some "desc"⟩).1 = .error e) ∧
      (generate_sources_for_topic (fun _ => none) ⟨none, some "desc"⟩).2 = 0 :=
  ⟨Or.inl rfl,
    C10_missing_key_raises (fun _ => none) ⟨none, some "desc"⟩ (Or.inl rfl)⟩

/-- C6: for every learning-goal prompt exchange, when the collaborator calls
raise (collaborator error or network failure), or when the response text
fails to parse as JSON after fence stripping, generate_learning_roadmap
returns the empty topic list; the function is total, so no failure
propagates to the caller. -/
theorem C6_parse_failure_returns_empty (collab : Except String String)
    (parseJson : String → Option (List Topic))
    (h : (∃ e, collab = .error e) ∨
      ∀ t, collab = .ok t → parseJson (stripFences (trimStr t)) = none) :
    generate_learning_roadmap collab parseJson = [] := by
  cases collab with
  | error e => rfl
  | ok text =>
    rcases h with ⟨e, he⟩ | h
    · cases he
    · simp only [generate_learning_roadmap]
      rw [h text rfl]

/-- C6, witness: a response that is not JSON (the parser behaviour rejects
everything) makes the roadmap come back empty. -/
theorem C6_witness :
    ((∃ e, (Except.ok "here is your roadmap!" : Except String String) = .error e) ∨
        ∀ t, (Except.ok "here is your roadmap!" : Except String String) = .ok t →
          (fun _ => (none : Option (List Topic))) (stripFences (trimStr t)) = none) ∧
      generate_learning_roadmap (Except.ok "here is your roadmap!")
        (fun _ => (none : Option (List Topic))) = [] := by
  have h : (∃ e, (Except.ok "here is your roadmap!" : Except String String) = .error e) ∨
      ∀ t, (Except.ok "here is your roadmap!" : Except String String) = .ok t →
        (fun _ => (none : Option (List Topic))) (stripFences (trimStr t)) = none :=
    Or.inr (fun t _ => rfl)
  exact ⟨h, C6_parse_failure_returns_empty _ _ h⟩

/-- C9: a request body without a goal is rejected with HTTP 400 and the
decomposition/ingestion pipeline is never invoked (zero invocations); a body
whose goal is a non-empty string is not rejected — the pipeline runs once on
the goal and the default-filled user id, and its result is returned. -/
theorem C9_goal_validation {ρ : Type} (ingest : String → String → ρ) (data : RequestBody) :
    (data.goal = none →
        generate_roadmap_endpoint ingest data = (.httpError 400 "Missing learning goal.", 0)) ∧
      (∀ g, data.goal = some g → g ≠ "" →
        generate_roadmap_endpoint ingest data =
          (.ok (ingest g (data.user_id.getD "user123")), 1)) := by
  constructor
  · intro h
    simp only [generate_roadmap_endpoint, h]
  · intro g hg hne
    simp only [generate_roadmap_endpoint, hg]
    rw [if_neg hne]

/-- C9, witness: a body with no goal gets the 400 error and zero pipeline
invocations; a body with goal "Learn Rust" reaches the pipeline exactly
once. -/
theorem C9_witness :
    generate_roadmap_endpoint (fun g u => g ++ u) ⟨none, none⟩ =
        (.httpError 400 "Missing learning goal.", 0) ∧
      generate_roadmap_endpoint (fun g u => g ++ u) ⟨some "Learn Rust", none⟩ =
        (.ok ((fun (g u : String) => g ++ u) "Learn Rust"
          ((none : Option String).getD "user123")), 1) :=
  ⟨(C9_goal_validation (fun g u => g ++ u) ⟨none, none⟩).1 rfl,
    (C9_goal_validation (fun g u => g ++ u) ⟨some "Learn Rust", none⟩).2 "Learn Rust" rfl
      (by decide)⟩

/-- A position whose topic is flagged against the topics before it is
reported by the validation sweep, wherever the sweep starts. -/
theorem gvAux_mem : ∀ (rest earlier : List Topic) (j k : Nat) (hk : k < rest.length),
    flagTopic (earlier ++ rest.take k) (rest.get ⟨k, hk⟩) = true →
    (j + k) ∈ gvAux earlier rest j := by
  intro rest
  induction rest with
  | nil => intro earlier j k hk; exact absurd hk (by simp)
  | cons t rs ih =>
    intro earlier j k hk hflag
    cases k with
    | zero =>
      simp only [List.take_zero, List.append_nil, List.get] at hflag
      simp only [gvAux, hflag, if_true]
      simp
    | succ k' =>
      have hk' : k' < rs.length := by simpa using hk
      have hflag' : flagTopic ((earlier ++ [t]) ++ rs.take k') (rs.get ⟨k', hk'⟩) = true := by
        rw [List.append_assoc]
        simpa [List.take_succ_cons] using hflag
      have hmem := ih (earlier ++ [t]) (j + 1) k' hk' hflag'
      have hj : j + (k' + 1) = (j + 1) + k' := by omega
      simp only [gvAux]
      rw [hj]
      split
      · exact List.mem_cons_of_mem _ hmem
      · exact hmem

/-- C7: the GraphValidator operation (modelled from the spec, its module not
being among the sources) flags every topic whose id duplicates the id of a
topic at a strictly earlier position, and every topic one of whose
prerequisite ids does not resolve to a topic at a strictly earlier position:
every such position appears in the reported violation list. -/
theorem C7_validator_flags_violations (ts : List Topic) (i : Nat) (hi : i < ts.length)
    (h : (∃ u ∈ ts.take i, u.id = (ts.get ⟨i, hi⟩).id) ∨
      (∃ p ∈ (ts.get ⟨i, hi⟩).prerequisites, ∀ u ∈ ts.take i, u.id ≠ p)) :
    i ∈ validate_topic_sequence ts := by
  have hflag : flagTopic (ts.take i) (ts.get ⟨i, hi⟩) = true := by
    simp only [flagTopic, Bool.or_eq_true, List.any_eq_true, beq_iff_eq, Bool.not_eq_true',
      List.any_eq_false, beq_eq_false_iff_ne]
    exact h
  have hmem := gvAux_mem ts [] 0 i hi (by simpa using hflag)
  simpa [validate_topic_sequence] using hmem

/-- Topic sequence used to witness C7: the second topic repeats the id of
the first. -/
def c7Topics : List Topic :=
  [⟨"a", "T1", "D1", "beginner", []⟩, ⟨"a", "T2", "D2", "beginner", []⟩]

/-- C7, witness: in a two-topic sequence whose second topic duplicates the
first topic's id, position 1 is reported. -/
theorem C7_witness :
    (1 < c7Topics.length ∧
        (∃ u ∈ c7Topics.take 1, u.id = (c7Topics.get ⟨1, by decide⟩).id)) ∧
      1 ∈ validate_topic_sequence c7Topics :=
  ⟨⟨by decide, by decide⟩,
    C7_validator_flags_violations c7Topics 1 (by decide) (Or.inl (by decide))⟩

end NodeBrain
